import Mathlib

/-!
Verification of the Guitar-Hero-PC-Texture-Utilities repository
(src/unpack.py and src/repack.py) against its natural-language
specification.

Byte buffers are modelled as `List Nat` (each element a byte value),
character text as `List Char`.  Pure Python helpers are translated
directly; filesystem and external-process effects of the repacking
loop are made explicit through a `SlotEnv` record of per-slot external
inputs.  Diagnostic strings are abstracted to a `Diag` inductive whose
constructors correspond one-to-one to the `repair_log.append` sites of
`replace_dds_in_file`; the payload fields carry the data interpolated
into the message.
-/

set_option maxRecDepth 100000

/-- The 4-byte container magic value `b'DDS '` (unpack.py line 16,
repack.py lines 11, 20, 34, 235). -/
def magicBytes : List Nat := [68, 68, 83, 32]

/-- Little-endian unsigned 32-bit read, `struct.unpack_from('<I', bs, off)`.
Out-of-range bytes read as 0 (all source call sites guard the length first). -/
def readLE32 (bs : List Nat) (off : Nat) : Nat :=
  bs.getD off 0 + 256 * bs.getD (off + 1) 0 + 65536 * bs.getD (off + 2) 0 +
    16777216 * bs.getD (off + 3) 0

/-- Little-endian 4-byte encoding of a 32-bit value (used to build
concrete test headers). -/
def le4 (v : Nat) : List Nat :=
  [v % 256, v / 256 % 256, v / 65536 % 256, v / 16777216 % 256]

/-- Overwrite the 4 bytes at `off` with the little-endian encoding of `v`. -/
def setLE32 (bs : List Nat) (off v : Nat) : List Nat :=
  bs.take off ++ le4 v ++ bs.drop (off + 4)

/-- Python slice assignment `data[o:e] = x` on a bytearray, for
nonnegative `o`, `e`: indices are clamped to the buffer length and the
slice is replaced by `x` (whose length need not equal the slice length). -/
def pySliceAssign (data : List Nat) (o e : Nat) (x : List Nat) : List Nat :=
  data.take (min o data.length) ++ x ++
    data.drop (min (max e (min o data.length)) data.length)

/-- Python-str whitespace over the ASCII range: the characters stripped by
`str.strip()` and matched by the regex class `\s` (after the ASCII decode
all characters are below 128). -/
def isPySpaceB (c : Char) : Bool :=
  c.toNat = 32 || c.toNat = 9 || c.toNat = 10 || c.toNat = 13 ||
    c.toNat = 11 || c.toNat = 12 || c.toNat = 28 || c.toNat = 29 ||
    c.toNat = 30 || c.toNat = 31

/-- `bytes.decode('ascii', errors='ignore')`: bytes ≥ 128 are dropped,
the rest become their ASCII characters. -/
def asciiDecodeIgnore (bs : List Nat) : List Char :=
  (bs.filter (fun b => b < 128)).map Char.ofNat

/-- Python `str.strip()` restricted to ASCII text: remove leading and
trailing whitespace characters. -/
def pyStrip (cs : List Char) : List Char :=
  ((cs.dropWhile isPySpaceB).reverse.dropWhile isPySpaceB).reverse

/-- `get_dds_format` (repack.py lines 10-17): `None` when fewer than 128
bytes or the first 4 bytes are not the magic, else the stripped
ASCII-decoded FourCC at bytes 84..87.  The `try/except` in the source is
unreachable because `decode(errors='ignore')` never raises. -/
def get_dds_format (dds_bytes : List Nat) : Option String :=
  if dds_bytes.length < 128 ∨ dds_bytes.take 4 ≠ magicBytes then none
  else some (String.mk (pyStrip (asciiDecodeIgnore ((dds_bytes.drop 84).take 4))))

/-- The normalization `mipmap_count if mipmap_count > 0 else 1`
(repack.py line 23). -/
def mipNorm (m : Nat) : Nat := if m > 0 then m else 1

/-- `get_mipmap_count` (repack.py lines 19-23): 1 when the header is
unparseable, else the (normalized) 32-bit mip count at byte 28. -/
def get_mipmap_count (dds_bytes : List Nat) : Nat :=
  if dds_bytes.length < 128 ∨ dds_bytes.take 4 ≠ magicBytes then 1
  else mipNorm (readLE32 dds_bytes 28)

/-- `get_dx10_dxgi_format` (repack.py lines 25-29). -/
def get_dx10_dxgi_format (dds_bytes : List Nat) : Option Nat :=
  if dds_bytes.length < 128 + 20 then none
  else some (readLE32 dds_bytes 128)

/-- Whether the magic occurs in `data` at position `i`. -/
def occursAtB (data : List Nat) (i : Nat) : Bool :=
  decide ((data.drop i).take 4 = magicBytes)

/-- Python `data.find(b'DDS ', start)`: the least index `i ≥ start` at
which the magic occurs, else none. -/
def findMagicFrom (data : List Nat) (start : Nat) : Option Nat :=
  ((List.range data.length).filter
    (fun i => decide (start ≤ i) && occursAtB data i)).head?

/-- The scanning loop of `extract_dds_files_with_log` (unpack.py lines
21-25): repeated `find`, each search resuming at the previous match
offset plus one. -/
def scanGo (data : List Nat) : Nat → Nat → List Nat
  | 0, _ => []
  | fuel + 1, start =>
    match findMagicFrom data start with
    | none => []
    | some i => i :: scanGo data fuel (i + 1)

/-- The offsets list built by the Scanner (unpack.py lines 21-25). -/
def scanOffsets (data : List Nat) : List Nat :=
  scanGo data (data.length + 1) 0

/-- `find_embedded_dds_length` (repack.py lines 31-38): distance from
`offset` to the next magic occurrence at or after `offset + 4`, else the
remaining bytes. -/
def find_embedded_dds_length (full_data : List Nat) (offset : Nat) : Nat :=
  match findMagicFrom full_data (offset + 4) with
  | none => full_data.length - offset
  | some next_idx => next_idx - offset

/-- `FOURCC_TO_TEXCONV_FMT` (repack.py lines 58-63). -/
def FOURCC_TO_TEXCONV_FMT (fourcc : String) : Option String :=
  if fourcc = "DXT1" then some "BC1_UNORM"
  else if fourcc = "DXT3" then some "BC2_UNORM"
  else if fourcc = "DXT5" then some "BC3_UNORM"
  else if fourcc = "ATI2" then some "BC5_UNORM"
  else none

/-- `DXGI_TO_TEXCONV_FMT` (repack.py lines 65-70). -/
def DXGI_TO_TEXCONV_FMT (dxgi : Nat) : Option String :=
  if dxgi = 71 then some "BC1_UNORM"
  else if dxgi = 74 then some "BC2_UNORM"
  else if dxgi = 77 then some "BC3_UNORM"
  else if dxgi = 83 then some "BC5_UNORM"
  else none

/-- Zero-pad a byte list on the right to length `sz` (a no-op when it is
already at least that long), as in repack.py lines 146-147, 283, 296, 343-344. -/
def padTo (g : List Nat) (sz : Nat) : List Nat :=
  g ++ List.replicate (sz - g.length) 0

/-- The final size gate of `convert_png_to_dds` (repack.py lines 144-151):
accept and zero-pad to exactly `original_size`, or reject. -/
def convFinalize (g : List Nat) (original_size : Nat) : Option (List Nat) :=
  if g.length ≤ original_size then some (padTo g original_size) else none

/-- `convert_png_to_dds` (repack.py lines 72-156) with its external
effects made explicit: `texconvAvail` is whether `ensure_texconv`
succeeded, `gen1` the bytes of the .dds produced by the first texconv
invocation (`none` when texconv failed or produced no file), `gen2`
likewise for the single reduced-mip retry. -/
def convert_png_to_dds (texconvAvail : Bool) (target_fourcc : String)
    (mip_count original_size : Nat) (gen1 gen2 : Option (List Nat)) :
    Option (List Nat) :=
  if ¬texconvAvail then none
  else if target_fourcc = "DX10" then none
  else if (FOURCC_TO_TEXCONV_FMT target_fourcc).isNone then none
  else
    match gen1 with
    | none => none
    | some g0 =>
      if g0.length > original_size ∧ mip_count > 1 then
        match gen2 with
        | none => none
        | some g2 => convFinalize g2 original_size
      else convFinalize g0 original_size

/-- Python truthiness of an optional string (`if not orig_format ...`,
`if gen_format and ...`). -/
def strTruthy : Option String → Bool
  | none => false
  | some s => s ≠ ""

/-- One line of the repair log.  Constructors correspond to the
`repair_log.append` sites of `replace_dds_in_file` (repack.py lines
223, 229, 236, 254, 272, 306, 315, 326, 332, 339, 350, 357); fields
carry the interpolated data, the surrounding message text is abstracted. -/
inductive Diag where
  | missingFile (name : String)
  | notEnoughData (name : String) (offset : Nat)
  | noHeader (name : String) (offset : Nat)
  | texconvUnavailableDx10 (name : String)
  | texconvFailedDx10 (name : String)
  | unknownDxgi (name : String) (dxgi : Option Nat)
  | conversionFailed (name : String)
  | couldNotDetermineFormat (name : String) (offset : Nat)
  | formatMismatch (name : String) (offset : Nat) (expected got : String)
  | fileTooLarge (name : String) (size space : Nat)
  | genFormatMismatch (name : String) (expected got : String)
  | noUsableReplacement (name : String) (offset : Nat)
deriving DecidableEq, Repr

/-- The per-slot external inputs of one iteration of the repacking loop:
file existence, the raw artifact's bytes (as read after the in-place
`regenerate_mipmaps` collaborator call), texconv availability, and the
bytes produced by the texconv invocations of the two PNG-conversion
paths (`none` = the invocation failed or produced no .dds file; for the
first DX10 attempt, process failure and empty output are logged
differently, hence the separate `dxRun1Ok`). -/
structure SlotEnv where
  ddsExists : Bool
  pngExists : Bool
  ddsBytes : List Nat
  texconvAvail : Bool
  gen1 : Option (List Nat)
  gen2 : Option (List Nat)
  dxRun1Ok : Bool
  dxGen1 : Option (List Nat)
  dxGen2 : Option (List Nat)

/-- The PNG-conversion stage of one loop iteration (repack.py lines
245-317): produces the generated replacement bytes, if any, plus the
diagnostics recorded on the way. -/
def pngStage (env : SlotEnv) (name : String) (offset : Nat)
    (orig_format : Option String) (orig_mipmaps L : Nat) (data : List Nat) :
    Option (List Nat) × List Diag :=
  if ¬env.pngExists then (none, [])
  else if orig_format = some "DX10" then
    let dxgi := get_dx10_dxgi_format ((data.drop offset).take 148)
    match (match dxgi with | none => none | some d => DXGI_TO_TEXCONV_FMT d) with
    | some _ =>
      if ¬env.texconvAvail then (none, [Diag.texconvUnavailableDx10 name])
      else if ¬env.dxRun1Ok then (none, [Diag.texconvFailedDx10 name])
      else
        match env.dxGen1 with
        | none => (none, [])
        | some g =>
          if g.length ≤ L then (some (padTo g L), [])
          else
            match env.dxGen2 with
            | none => (none, [])
            | some g2 =>
              if g2.length ≤ L then (some (padTo g2 L), []) else (none, [])
    | none => (none, [Diag.unknownDxgi name dxgi])
  else
    match convert_png_to_dds env.texconvAvail (orig_format.getD "")
        orig_mipmaps L env.gen1 env.gen2 with
    | some g => (some g, [])
    | none => (none, [Diag.conversionFailed name])

/-- The substitution stage of one loop iteration (repack.py lines
319-360): validate the raw or generated replacement and splice it into
the archive copy, or leave the slot untouched with a diagnostic. -/
def rawStage (env : SlotEnv) (name : String) (offset : Nat)
    (orig_format : Option String) (L : Nat) (generated : Option (List Nat))
    (data : List Nat) : List Nat × List Diag :=
  match generated with
  | some g =>
    let gen_format := get_dds_format (g.take 128)
    if strTruthy gen_format ∧ gen_format ≠ orig_format then
      (data, [Diag.genFormatMismatch name (orig_format.getD "") (gen_format.getD "")])
    else (pySliceAssign data offset (offset + L) (g.take L), [])
  | none =>
    if env.ddsExists then
      let dds_data := env.ddsBytes
      let new_format := get_dds_format dds_data
      if ¬strTruthy orig_format ∨ ¬strTruthy new_format then
        (data, [Diag.couldNotDetermineFormat name offset])
      else
        let mm : List Diag :=
          if orig_format ≠ new_format then
            [Diag.formatMismatch name offset (orig_format.getD "") (new_format.getD "")]
          else []
        if L < dds_data.length then
          (data, mm ++ [Diag.fileTooLarge name dds_data.length L])
        else
          (pySliceAssign data offset (offset + L) ((padTo dds_data L).take L), mm)
    else (data, [Diag.noUsableReplacement name offset])

/-- One iteration of the repacking loop of `replace_dds_in_file`
(repack.py lines 218-360), over the accumulated (archive copy, repair
log) pair. -/
def processEntry (env : SlotEnv) (name : String) (offset : Nat)
    (acc : List Nat × List Diag) : List Nat × List Diag :=
  let data := acc.1
  if ¬env.ddsExists ∧ ¬env.pngExists then (data, acc.2 ++ [Diag.missingFile name])
  else if data.length < offset + 128 then (data, acc.2 ++ [Diag.notEnoughData name offset])
  else if ((data.drop offset).take 128).take 4 ≠ magicBytes then
    (data, acc.2 ++ [Diag.noHeader name offset])
  else
    let original_header := (data.drop offset).take 128
    let orig_format := get_dds_format original_header
    let orig_mipmaps := get_mipmap_count original_header
    let L := find_embedded_dds_length data offset
    let gstage := pngStage env name offset orig_format orig_mipmaps L data
    let rstage := rawStage env name offset orig_format L gstage.1 data
    (rstage.1, acc.2 ++ gstage.2 ++ rstage.2)

/-- ASCII decimal digit test (the regex class `\d` over ASCII text). -/
def isDigitC (c : Char) : Bool := 48 ≤ c.toNat && c.toNat ≤ 57

/-- Python `int()` of a decimal digit string. -/
def digitsToNat (cs : List Char) : Nat :=
  cs.foldl (fun a c => 10 * a + (c.toNat - 48)) 0

/-- Strip a literal from the front of a character list, or fail. -/
def chopLit (lit s : List Char) : Option (List Char) :=
  if s.take lit.length = lit then some (s.drop lit.length) else none

/-- The part of the manifest regex after the captured name,
`\s*?\n\s*Offset:\s*(\d+)`: a maximal whitespace run that must contain a
newline (a whitespace character cannot begin `Offset:`, so backtracking
cannot move the boundary), the literal `Offset:`, more whitespace, and a
greedy nonempty digit run.  Returns the full-match result and the text
after the match end. -/
def matchTail (name : String) (s3 : List Char) : Option (String × Nat × List Char) :=
  let ws := s3.takeWhile isPySpaceB
  if ¬(ws.any (fun c => c.toNat = 10)) then none
  else
    match chopLit "Offset:".toList (s3.drop ws.length) with
    | none => none
    | some s5 =>
      let s6 := s5.dropWhile isPySpaceB
      let odigits := s6.takeWhile isDigitC
      if odigits = [] then none
      else some (name, digitsToNat odigits, s6.drop odigits.length)

/-- One attempted match of the manifest regex
`(dds_\d+\.dds)\s*?\n\s*Offset:\s*(\d+)` (repack.py line 205) at the head
of `s`.  Because a digit cannot begin `.dds`, a whitespace character
cannot begin `Offset:` and a whitespace character is not a digit, regex
backtracking never changes the outcome and the match is the
deterministic sequence below: the literal name parts, then `matchTail`.
On success returns the two captures and the text after the match end. -/
def matchEntryAt (s : List Char) : Option (String × Nat × List Char) :=
  match chopLit "dds_".toList s with
  | none => none
  | some s1 =>
    let digits := s1.takeWhile isDigitC
    if digits = [] then none
    else
      match chopLit ".dds".toList (s1.drop digits.length) with
      | none => none
      | some s3 =>
        matchTail (String.mk ("dds_".toList ++ digits ++ ".dds".toList)) s3

/-- `re.findall` scanning for the manifest pattern: leftmost matches,
each subsequent search resuming at the previous match end. -/
def findEntriesGo : Nat → List Char → List (String × Nat)
  | 0, _ => []
  | _, [] => []
  | fuel + 1, c :: cs =>
    match matchEntryAt (c :: cs) with
    | some (n, o, rest) => (n, o) :: findEntriesGo fuel rest
    | none => findEntriesGo fuel cs

/-- The manifest parse `re.findall(r'(dds_\d+\.dds)\s*?\n\s*Offset:\s*(\d+)',
log_text)` of repack.py line 205, with the offset capture already
converted by `int` (line 219). -/
def findEntries (s : List Char) : List (String × Nat) :=
  findEntriesGo s.length s

/-- The whole repacking loop of `replace_dds_in_file` (repack.py lines
205-360): parse the manifest text, then process each entry in order over
the archive copy and the repair log.  `envOf i` supplies the external
inputs of the i-th entry (0-based). -/
def replaceRun (envOf : Nat → SlotEnv) (logText : List Char)
    (data0 : List Nat) : List Nat × List Diag :=
  (findEntries logText).enum.foldl
    (fun acc p => processEntry (envOf p.1) p.2.1 p.2.2 acc) (data0, [])

/-- Modelled from the spec: the repository's src/ has no Size Calculator;
spec section 4.2 describes it (base header 128 bytes; per-format
bytes-per-4x4-block; per mip level `m`, width and height `max 1 (d >> m)`
and level size `ceil(w/4) * ceil(h/4) * bytes_per_block`).  The lookup
table maps the known block-compressed FourCCs of the repack table
(BC1 blocks are 8 bytes, BC2/BC3/BC5 are 16).  Only the block-compressed,
non-extended path is modelled, which is the path the claims exercise. -/
def bytesPerBlock (fourcc : String) : Option Nat :=
  if fourcc = "DXT1" then some 8
  else if fourcc = "DXT3" then some 16
  else if fourcc = "DXT5" then some 16
  else if fourcc = "ATI2" then some 16
  else none

/-- Modelled from the spec: sum of the mip-level sizes (spec section 4.2). -/
def sizeCalcLevels (w h bpb mips : Nat) : Nat :=
  (List.range mips).foldl
    (fun acc m => acc + (max 1 (w >>> m) + 3) / 4 * ((max 1 (h >>> m) + 3) / 4) * bpb) 0

/-- Modelled from the spec: the Size Calculator (spec section 4.2) on the
block-compressed path — header size 128 plus all mip level sizes, from the
header fields at the given archive offset (height at +12, width at +16,
normalized mip count at +28). -/
def sizeCalc (data : List Nat) (offset : Nat) : Option Nat :=
  match get_dds_format ((data.drop offset).take 128) with
  | none => none
  | some fmt =>
    match bytesPerBlock fmt with
    | none => none
    | some bpb =>
      let w := readLE32 ((data.drop offset).take 128) 16
      let h := readLE32 ((data.drop offset).take 128) 12
      let mips := get_mipmap_count ((data.drop offset).take 128)
      some (128 + sizeCalcLevels w h bpb mips)

/-- A synthetic 128-byte DDS header: magic, size field 124, flags 0,
height, width, pitch 0, depth 0, mip count, 52 reserved bytes, the
FourCC at bytes 84..87, 40 trailing bytes. -/
def mkHeader (h w mip : Nat) (fourcc : List Nat) : List Nat :=
  magicBytes ++ le4 124 ++ le4 0 ++ le4 h ++ le4 w ++ le4 0 ++ le4 0 ++
    le4 mip ++ List.replicate 52 0 ++ fourcc ++ List.replicate 40 0

/-- FourCC byte sequences `DXT1` and `DXT3`. -/
def fourccDXT1 : List Nat := [68, 88, 84, 49]

def fourccDXT3 : List Nat := [68, 88, 84, 51]


/-- A per-slot environment for the pure raw-artifact path: the .dds
artifact exists with content `bs`, no .png exists and texconv plays no
role. -/
def envRawOnly (bs : List Nat) : SlotEnv :=
  ⟨true, false, bs, false, none, none, false, none, none⟩

/-- The concrete scenario of spec section 8: a 136-byte archive holding
one DXT1 4x4 single-mip sub-resource (128-byte header plus 8 payload
bytes). -/
def data136 : List Nat := mkHeader 4 4 1 fourccDXT1 ++ [1, 2, 3, 4, 5, 6, 7, 8]

/-- Like `data136` but the payload bytes 130..133 accidentally spell the
magic value, so the next-signature heuristic cuts the slot short. -/
def dataC1 : List Nat := mkHeader 4 4 1 fourccDXT1 ++ [0, 0, 68, 68, 83, 32, 0, 0]

section HelperLemmas

/-- An occurrence of the magic needs 4 bytes of room. -/
theorem occursAtB_add_le {data : List Nat} {i : Nat}
    (h : occursAtB data i = true) : i + 4 ≤ data.length := by
  unfold occursAtB at h
  rw [decide_eq_true_eq] at h
  have h4 : ((data.drop i).take 4).length = 4 := by rw [h]; rfl
  simp only [List.length_take, List.length_drop] at h4
  omega

/-- What a successful `findMagicFrom` guarantees. -/
theorem findMagicFrom_some {data : List Nat} {start i : Nat}
    (h : findMagicFrom data start = some i) :
    start ≤ i ∧ i < data.length ∧ occursAtB data i = true := by
  unfold findMagicFrom at h
  cases hT : (List.range data.length).filter
      (fun j => decide (start ≤ j) && occursAtB data j) with
  | nil => rw [hT] at h; simp at h
  | cons b t =>
    rw [hT] at h
    simp only [List.head?_cons, Option.some.injEq] at h
    have hmem : b ∈ (List.range data.length).filter
        (fun j => decide (start ≤ j) && occursAtB data j) := by
      rw [hT]; exact List.mem_cons_self _ _
    rw [List.mem_filter, List.mem_range] at hmem
    obtain ⟨hi, hp⟩ := hmem
    rw [Bool.and_eq_true, decide_eq_true_eq] at hp
    exact h ▸ ⟨hp.1, hi, hp.2⟩

/-- The heuristic slot length stays inside the archive. -/
theorem find_embedded_le {data : List Nat} {offset : Nat}
    (h : offset ≤ data.length) :
    offset + find_embedded_dds_length data offset ≤ data.length := by
  unfold find_embedded_dds_length
  cases hf : findMagicFrom data (offset + 4) with
  | none => simp only [hf]; omega
  | some i =>
    simp only [hf]
    obtain ⟨h1, h2, _⟩ := findMagicFrom_some hf
    omega

theorem padTo_length_of_le {g : List Nat} {L : Nat} (h : g.length ≤ L) :
    (padTo g L).length = L := by
  simp [padTo]; omega

theorem padTo_take_of_le {g : List Nat} {L : Nat} (h : g.length ≤ L) :
    (padTo g L).take L = padTo g L :=
  List.take_of_length_le (le_of_eq (padTo_length_of_le h))

/-- Python slice assignment under in-bounds indices. -/
theorem pySliceAssign_eq_of_bounds {data x : List Nat} {o e : Nat}
    (ho : o ≤ data.length) (hoe : o ≤ e) (he : e ≤ data.length) :
    pySliceAssign data o e x = data.take o ++ x ++ data.drop e := by
  unfold pySliceAssign
  rw [min_eq_left ho, max_eq_left hoe, min_eq_left he]

theorem pySliceAssign_length {data x : List Nat} {o e : Nat}
    (ho : o ≤ data.length) (hoe : o ≤ e) (he : e ≤ data.length)
    (hx : x.length = e - o) :
    (pySliceAssign data o e x).length = data.length := by
  rw [pySliceAssign_eq_of_bounds ho hoe he]
  simp [List.length_append, List.length_take, List.length_drop]
  omega

end HelperLemmas

theorem setLE32_take4 {bs : List Nat} (h : 128 ≤ bs.length) (v : Nat) :
    (setLE32 bs 28 v).take 4 = bs.take 4 := by
  unfold setLE32
  rw [List.take_append_of_le_length
      (by simp [List.length_append, List.length_take, le4]),
    List.take_append_of_le_length (by simp [List.length_take]; omega),
    List.take_take]
  norm_num

theorem setLE32_length {bs : List Nat} (h : 128 ≤ bs.length) (v : Nat) :
    (setLE32 bs 28 v).length = bs.length := by
  simp [setLE32, le4, List.length_append, List.length_take, List.length_drop]
  omega

theorem readLE32_setLE32 {bs : List Nat} (h : 128 ≤ bs.length) {v : Nat}
    (hv : v < 256) : readLE32 (setLE32 bs 28 v) 28 = v := by
  unfold readLE32 setLE32
  have hlen : (bs.take 28 ++ le4 v).length = 32 := by
    simp [List.length_append, List.length_take, le4]; omega
  have ht : (bs.take 28).length = 28 := by simp [List.length_take]; omega
  have e : ∀ k, k < 4 →
      ((bs.take 28 ++ le4 v) ++ bs.drop (28 + 4)).getD (28 + k) 0 =
        (le4 v).getD k 0 := by
    intro k hk
    rw [List.getD_append _ _ _ _ (by rw [hlen]; omega),
      List.getD_append_right _ _ _ _ (by rw [ht]; omega), ht]
    congr 1
    omega
  have e0 : ((bs.take 28 ++ le4 v) ++ bs.drop (28 + 4)).getD 28 0 =
      (le4 v).getD 0 0 := by
    have e00 := e 0 (by omega)
    rwa [Nat.add_zero] at e00
  rw [e0, e 1 (by omega), e 2 (by omega), e 3 (by omega)]
  have f0 : (le4 v).getD 0 0 = v % 256 := rfl
  have f1 : (le4 v).getD 1 0 = v / 256 % 256 := rfl
  have f2 : (le4 v).getD 2 0 = v / 65536 % 256 := rfl
  have f3 : (le4 v).getD 3 0 = v / 16777216 % 256 := rfl
  rw [f0, f1, f2, f3]
  omega

/-- `get_mipmap_count` after overwriting the mip-count field with a small
value is the normalized value. -/
theorem get_mipmap_count_setLE32 {bs : List Nat} (h : 128 ≤ bs.length)
    (hm : bs.take 4 = magicBytes) {v : Nat} (hv : v < 256) :
    get_mipmap_count (setLE32 bs 28 v) = mipNorm v := by
  unfold get_mipmap_count
  rw [if_neg, readLE32_setLE32 h hv]
  rw [setLE32_length h, setLE32_take4 h]
  push_neg
  exact ⟨by omega, hm⟩

/-- C8: for every buffer and offset, the header parser returns no
descriptor iff fewer than 128 bytes remain from the offset or the 4
bytes at the offset are not the container magic value; otherwise it
returns a descriptor (the two sides of the iff). -/
theorem c8_header_parser_none_iff (data : List Nat) (off : Nat) :
    get_dds_format (data.drop off) = none ↔
      data.length < off + 128 ∨ (data.drop off).take 4 ≠ magicBytes := by
  unfold get_dds_format
  have hlen : (data.drop off).length = data.length - off := List.length_drop off data
  by_cases h : (data.drop off).length < 128 ∨ (data.drop off).take 4 ≠ magicBytes
  · rw [if_pos h]
    simp only [true_iff]
    rcases h with h | h
    · left; omega
    · right; exact h
  · rw [if_neg h]
    push_neg at h
    simp only [ne_eq, reduceCtorEq, false_iff, not_or, not_lt]
    push_neg
    exact ⟨by omega, h.2⟩

/-- C9: on a parseable header, a stored mip count of 0 is read back as 1;
writing mip counts 0 and 1 into the mip field yields identical
`get_mipmap_count` results (so everything downstream of this reader
treats them identically); the output is a fixed point of the
normalization, which is idempotent. -/
theorem c9_mip_zero_normalized (bs : List Nat) (h1 : 128 ≤ bs.length)
    (h2 : bs.take 4 = magicBytes) (h3 : readLE32 bs 28 = 0) :
    get_mipmap_count bs = 1 ∧
    get_mipmap_count (setLE32 bs 28 0) = get_mipmap_count (setLE32 bs 28 1) ∧
    mipNorm (get_mipmap_count bs) = get_mipmap_count bs ∧
    (∀ m, mipNorm (mipNorm m) = mipNorm m) := by
  have hbs : get_mipmap_count bs = 1 := by
    unfold get_mipmap_count
    rw [if_neg (by push_neg; exact ⟨by omega, h2⟩), h3]
    rfl
  refine ⟨hbs, ?_, ?_, ?_⟩
  · rw [get_mipmap_count_setLE32 h1 h2 (by omega),
      get_mipmap_count_setLE32 h1 h2 (by omega)]
    rfl
  · rw [hbs]; rfl
  · intro m
    unfold mipNorm
    by_cases hm : m > 0
    · rw [if_pos hm, if_pos hm]
    · rw [if_neg hm]; rfl

/-- C9 witness: a concrete DXT1 header whose stored mip count is 0. -/
theorem c9_witness :
    get_mipmap_count (mkHeader 4 4 0 fourccDXT1) = 1 ∧
    get_mipmap_count (setLE32 (mkHeader 4 4 0 fourccDXT1) 28 0) =
      get_mipmap_count (setLE32 (mkHeader 4 4 0 fourccDXT1) 28 1) ∧
    mipNorm (get_mipmap_count (mkHeader 4 4 0 fourccDXT1)) =
      get_mipmap_count (mkHeader 4 4 0 fourccDXT1) ∧
    (∀ m, mipNorm (mipNorm m) = mipNorm m) :=
  c9_mip_zero_normalized (mkHeader 4 4 0 fourccDXT1) (by decide) (by decide)
    (by decide)

/-- C10: an unparseable buffer (shorter than 128 bytes, or not starting
with the magic) makes the mip-count reader return 1 — no failure is
signalled — and a valid single-mip header returns the same 1, so the two
are indistinguishable at this interface. -/
theorem c10_mip_reader_unparseable (bs : List Nat)
    (h : bs.length < 128 ∨ bs.take 4 ≠ magicBytes) :
    get_mipmap_count bs = 1 ∧
    get_mipmap_count (mkHeader 4 4 1 fourccDXT1) = 1 ∧
    get_dds_format (mkHeader 4 4 1 fourccDXT1) = some "DXT1" := by
  refine ⟨?_, by decide, by decide⟩
  unfold get_mipmap_count
  rw [if_pos h]

/-- C10 witness: the empty buffer. -/
theorem c10_witness :
    get_mipmap_count [] = 1 ∧
    get_mipmap_count (mkHeader 4 4 1 fourccDXT1) = 1 ∧
    get_dds_format (mkHeader 4 4 1 fourccDXT1) = some "DXT1" :=
  c10_mip_reader_unparseable [] (by decide)

/-- The scanning loop started at `start`, with enough fuel, returns
exactly the positions at or after `start` where the magic occurs, in
increasing order. -/
theorem scanGo_eq (data : List Nat) :
    ∀ (fuel start : Nat), data.length ≤ start + fuel →
      scanGo data fuel start =
        (List.range data.length).filter
          (fun i => decide (start ≤ i) && occursAtB data i) := by
  intro fuel
  induction fuel with
  | zero =>
    intro start h
    rw [scanGo]
    symm
    rw [List.filter_eq_nil_iff]
    intro a ha
    rw [List.mem_range] at ha
    simp only [Bool.and_eq_true, decide_eq_true_eq, not_and]
    intro hsa
    omega
  | succ n ih =>
    intro start h
    cases hT : (List.range data.length).filter
        (fun i => decide (start ≤ i) && occursAtB data i) with
    | nil =>
      rw [scanGo]
      rw [findMagicFrom, hT]
      rfl
    | cons i t =>
      have hmem : i ∈ (List.range data.length).filter
          (fun j => decide (start ≤ j) && occursAtB data j) := by
        rw [hT]; exact List.mem_cons_self _ _
      rw [List.mem_filter, List.mem_range] at hmem
      obtain ⟨hi, hp⟩ := hmem
      rw [Bool.and_eq_true, decide_eq_true_eq] at hp
      have hpw : List.Pairwise (· < ·)
          ((List.range data.length).filter
            (fun j => decide (start ≤ j) && occursAtB data j)) :=
        (List.pairwise_lt_range data.length).filter _
      rw [hT, List.pairwise_cons] at hpw
      have key : (List.range data.length).filter
          (fun j => decide (i + 1 ≤ j) && occursAtB data j) = t := by
        have e1 : ((List.range data.length).filter
            (fun j => decide (start ≤ j) && occursAtB data j)).filter
              (fun j => decide (i + 1 ≤ j)) =
            (List.range data.length).filter
              (fun j => decide (i + 1 ≤ j) && occursAtB data j) := by
          rw [List.filter_filter]
          apply List.filter_congr
          intro j _
          cases hocc : occursAtB data j
          · simp [hocc]
          · by_cases hij : i + 1 ≤ j
            · have hsj : start ≤ j := by omega
              simp [hocc, hij, hsj]
            · have hsj : ¬(i + 1 ≤ j) := hij
              simp [hocc, hij]
        rw [← e1, hT, List.filter_cons_of_neg (by simp)]
        rw [List.filter_eq_self]
        intro a ha
        simp only [decide_eq_true_eq]
        exact hpw.1 a ha
      rw [scanGo, findMagicFrom, hT]
      simp only [List.head?_cons]
      rw [ih (i + 1) (by omega), key]

/-- C7: the Scanner produces exactly the ordered list of all byte
offsets at which the 4-byte magic occurs: it equals the increasing
enumeration of all positions, membership is exactly occurrence of the
magic, and the output is strictly increasing.  (Each search resumes at
the previous match offset plus one, per the definition of `scanGo`.) -/
theorem c7_scanner_all_offsets (data : List Nat) :
    scanOffsets data =
      (List.range data.length).filter (fun i => occursAtB data i) ∧
    (∀ i, i ∈ scanOffsets data ↔ (data.drop i).take 4 = magicBytes) ∧
    List.Pairwise (· < ·) (scanOffsets data) := by
  have hmain : scanOffsets data =
      (List.range data.length).filter (fun i => occursAtB data i) := by
    unfold scanOffsets
    rw [scanGo_eq data (data.length + 1) 0 (by omega)]
    apply List.filter_congr
    intro j _
    simp
  refine ⟨hmain, ?_, ?_⟩
  · intro i
    rw [hmain, List.mem_filter, List.mem_range]
    constructor
    · intro ⟨_, hocc⟩
      rw [occursAtB, decide_eq_true_eq] at hocc
      exact hocc
    · intro hocc
      have hB : occursAtB data i = true := by rw [occursAtB, decide_eq_true_eq]; exact hocc
      exact ⟨by have := occursAtB_add_le hB; omega, hB⟩
  · rw [hmain]
    exact (List.pairwise_lt_range data.length).filter _

theorem convFinalize_len {g r : List Nat} {sz : Nat}
    (h : convFinalize g sz = some r) : r.length = sz := by
  unfold convFinalize at h
  split at h
  · rw [Option.some.injEq] at h
    rw [← h]
    exact padTo_length_of_le (by omega)
  · simp at h

/-- Whatever `convert_png_to_dds` returns has exactly the requested size
(it is padded up, never truncated, and rejected when too large). -/
theorem convert_some_len {t : Bool} {f : String} {m sz : Nat}
    {g1 g2 : Option (List Nat)} {r : List Nat}
    (h : convert_png_to_dds t f m sz g1 g2 = some r) : r.length = sz := by
  unfold convert_png_to_dds at h
  split at h
  · simp at h
  split at h
  · simp at h
  split at h
  · simp at h
  split at h
  · simp at h
  split at h
  · split at h
    · simp at h
    · exact convFinalize_len h
  · exact convFinalize_len h

/-- Whatever the PNG-conversion stage generates has exactly the slot
length `L`. -/
theorem pngStage_some_len {env : SlotEnv} {name : String} {offset : Nat}
    {orig : Option String} {m L : Nat} {data g : List Nat}
    (h : (pngStage env name offset orig m L data).1 = some g) : g.length = L := by
  unfold pngStage at h
  split at h
  · simp at h
  · split at h
    · dsimp only at h
      split at h
      · split at h
        · simp at h
        · split at h
          · simp at h
          · split at h
            · simp at h
            · split at h
              · simp only [Option.some.injEq] at h
                rw [← h]
                exact padTo_length_of_le (by omega)
              · split at h
                · simp at h
                · split at h
                  · simp only [Option.some.injEq] at h
                    rw [← h]
                    exact padTo_length_of_le (by omega)
                  · simp at h
      · simp at h
    · split at h
      · next hconv =>
        simp only [Option.some.injEq] at h
        rw [← h]
        exact convert_some_len hconv
      · simp at h

theorem rawStage_length {env : SlotEnv} {name : String} {offset L : Nat}
    {orig : Option String} {generated : Option (List Nat)} {data : List Nat}
    (ho : offset ≤ data.length) (hL : offset + L ≤ data.length)
    (hgen : ∀ g, generated = some g → g.length = L) :
    (rawStage env name offset orig L generated data).1.length = data.length := by
  cases generated with
  | some g =>
    have hg := hgen g rfl
    simp only [rawStage]
    split
    · rfl
    · apply pySliceAssign_length ho (by omega) hL
      simp only [List.length_take]
      omega
  | none =>
    simp only [rawStage]
    split
    · split
      · rfl
      · split
        · rfl
        · next hnotlt =>
          apply pySliceAssign_length ho (by omega) hL
          rw [padTo_take_of_le (by omega), padTo_length_of_le (by omega)]
          omega
    · rfl

/-- One loop iteration never changes the archive copy's length. -/
theorem processEntry_length (env : SlotEnv) (name : String) (offset : Nat)
    (acc : List Nat × List Diag) :
    (processEntry env name offset acc).1.length = acc.1.length := by
  unfold processEntry
  dsimp only
  split
  · rfl
  · split
    · rfl
    · split
      · rfl
      · apply rawStage_length (by omega)
        · exact find_embedded_le (by omega)
        · intro g hg
          exact pngStage_some_len hg

theorem foldl_processEntry_length (envOf : Nat → SlotEnv) :
    ∀ (l : List (Nat × String × Nat)) (acc : List Nat × List Diag),
      ((l.foldl (fun a p => processEntry (envOf p.1) p.2.1 p.2.2 a) acc).1).length
        = acc.1.length := by
  intro l
  induction l with
  | nil => intro acc; rfl
  | cons p ps ih =>
    intro acc
    rw [List.foldl_cons, ih]
    exact processEntry_length _ _ _ acc

/-- C3: for every archive, every manifest text and every assignment of
per-slot external inputs, the rewritten archive produced by the splicing
loop has exactly the length of the original archive, whatever mix of
replaced and skipped slots occurs. -/
theorem c3_splice_preserves_length (envOf : Nat → SlotEnv)
    (logText : List Char) (data0 : List Nat) :
    (replaceRun envOf logText data0).1.length = data0.length := by
  unfold replaceRun
  exact foldl_processEntry_length envOf _ (data0, [])

theorem pngStage_png_false {env : SlotEnv} {name : String} {offset : Nat}
    {orig : Option String} {m L : Nat} {data : List Nat}
    (hpng : env.pngExists = false) :
    pngStage env name offset orig m L data = (none, []) := by
  unfold pngStage
  rw [if_pos (by rw [hpng]; simp)]

/-- When only the raw artifact exists and the slot guards pass, one loop
iteration is exactly the substitution stage on `none` generated bytes,
with the slot length recomputed by `find_embedded_dds_length`. -/
theorem processEntry_rawOnly {env : SlotEnv} {name : String} {offset : Nat}
    {data : List Nat} {rlog : List Diag}
    (hdds : env.ddsExists = true) (hpng : env.pngExists = false)
    (hlen : offset + 128 ≤ data.length)
    (hmagic : (data.drop offset).take 4 = magicBytes) :
    processEntry env name offset (data, rlog) =
      ((rawStage env name offset (get_dds_format ((data.drop offset).take 128))
          (find_embedded_dds_length data offset) none data).1,
        rlog ++ (rawStage env name offset
          (get_dds_format ((data.drop offset).take 128))
          (find_embedded_dds_length data offset) none data).2) := by
  have htk : ((data.drop offset).take 128).take 4 = magicBytes := by
    rw [List.take_take]
    norm_num
    exact hmagic
  unfold processEntry
  dsimp only
  rw [if_neg (by rw [hdds]; simp), if_neg (by omega), if_neg (by rw [htk]; simp),
    pngStage_png_false hpng]
  simp

theorem rawStage_raw_accept {env : SlotEnv} {name : String} {offset L : Nat}
    {orig : Option String} {data : List Nat}
    (hdds : env.ddsExists = true)
    (horig : strTruthy orig = true)
    (hnew : strTruthy (get_dds_format env.ddsBytes) = true)
    (hfit : env.ddsBytes.length ≤ L) :
    rawStage env name offset orig L none data =
      (pySliceAssign data offset (offset + L) ((padTo env.ddsBytes L).take L),
        if orig ≠ get_dds_format env.ddsBytes then
          [Diag.formatMismatch name offset (orig.getD "")
            ((get_dds_format env.ddsBytes).getD "")]
        else []) := by
  unfold rawStage
  rw [if_pos (by rw [hdds])]
  dsimp only
  rw [if_neg (by rw [horig, hnew]; simp), if_neg (by omega)]

theorem rawStage_raw_oversize {env : SlotEnv} {name : String} {offset L : Nat}
    {orig : Option String} {data : List Nat}
    (hdds : env.ddsExists = true)
    (horig : strTruthy orig = true)
    (hnew : strTruthy (get_dds_format env.ddsBytes) = true)
    (hbig : L < env.ddsBytes.length) :
    rawStage env name offset orig L none data =
      (data,
        (if orig ≠ get_dds_format env.ddsBytes then
          [Diag.formatMismatch name offset (orig.getD "")
            ((get_dds_format env.ddsBytes).getD "")]
        else []) ++ [Diag.fileTooLarge name env.ddsBytes.length L]) := by
  unfold rawStage
  rw [if_pos (by rw [hdds])]
  dsimp only
  rw [if_neg (by rw [horig, hnew]; simp), if_pos (by omega)]

theorem rawStage_gen_mismatch {env : SlotEnv} {name : String} {offset L : Nat}
    {orig : Option String} {g data : List Nat}
    (h1 : strTruthy (get_dds_format (g.take 128)) = true)
    (h2 : get_dds_format (g.take 128) ≠ orig) :
    rawStage env name offset orig L (some g) data =
      (data, [Diag.genFormatMismatch name (orig.getD "")
        ((get_dds_format (g.take 128)).getD "")]) := by
  unfold rawStage
  dsimp only
  rw [if_pos ⟨h1, h2⟩]

/-- 131-byte raw replacement: a DXT1 header plus 3 bytes. -/
def envC1 : SlotEnv := envRawOnly (mkHeader 4 4 1 fourccDXT1 ++ [9, 9, 9])

/-- 128-byte raw replacement with FourCC `DXT3`. -/
def envC2 : SlotEnv := envRawOnly (mkHeader 4 4 1 fourccDXT3)

/-- 140-byte raw replacement: a DXT1 header plus 12 bytes. -/
def envC5 : SlotEnv := envRawOnly (mkHeader 4 4 1 fourccDXT1 ++ List.replicate 12 9)

/-- 130-byte raw replacement: a DXT1 header plus 2 bytes. -/
def envC6 : SlotEnv := envRawOnly (mkHeader 4 4 1 fourccDXT1 ++ [7, 7])

/-- FourCC byte sequence `DX10`, the extended-header sentinel. -/
def fourccDX10 : List Nat := [68, 88, 49, 48]

/-- A 156-byte archive holding one DX10 sub-resource: 128-byte header
with FourCC `DX10`, a 20-byte extension whose DXGI identifier is 71
(BC1), and 8 payload bytes. -/
def dataC5dx : List Nat :=
  mkHeader 4 4 1 fourccDX10 ++ le4 71 ++ List.replicate 16 0 ++
    [1, 2, 3, 4, 5, 6, 7, 8]

/-- A DX10 slot's external inputs: the PNG exists and both texconv
attempts produce 157 oversized bytes; a valid 148-byte DX10 raw
artifact also exists as fallback. -/
def envC5dx : SlotEnv :=
  ⟨true, true, mkHeader 4 4 1 fourccDX10 ++ le4 71 ++ List.replicate 16 0, true,
    none, none, true, some (List.replicate 157 1), some (List.replicate 157 1)⟩

/-- C1 counterexample: on an archive whose single DXT1 4x4 single-mip
slot spans 136 bytes by the mip-chain arithmetic (`sizeCalc`), but whose
payload accidentally contains the magic at byte 130, repacking uses slot
length 130 — the distance to the next magic signature — and rejects a
131-byte matching-format replacement that the Size-Calculator length
would admit, logging 130 as the available space.  So the repacking slot
length IS the next-signature heuristic (`find_embedded_dds_length`,
repack.py line 243), not the header-driven mip-chain arithmetic. -/
theorem c1_counterexample :
    sizeCalc dataC1 0 = some 136 ∧
    find_embedded_dds_length dataC1 0 = 130 ∧
    envC1.ddsBytes.length = 131 ∧
    get_dds_format envC1.ddsBytes = get_dds_format ((dataC1.drop 0).take 128) ∧
    (processEntry envC1 "dds_001.dds" 0 (dataC1, [])).1 = dataC1 ∧
    (processEntry envC1 "dds_001.dds" 0 (dataC1, [])).2 =
      [Diag.fileTooLarge "dds_001.dds" 131 130] := by decide

/-- C1 amended: the slot length used for replacement at repack time is
recomputed from the archive bytes at the entry's offset by the
distance-to-next-magic-signature heuristic `find_embedded_dds_length`
(not by mip-chain arithmetic): on the raw-artifact path a replacement is
accepted exactly when it fits that heuristic length, and an accepted
replacement overwrites exactly the byte range of that heuristic length. -/
theorem c1_amended_heuristic_slot_length (env : SlotEnv) (name : String)
    (offset : Nat) (data : List Nat) (rlog : List Diag)
    (hdds : env.ddsExists = true) (hpng : env.pngExists = false)
    (hlen : offset + 128 ≤ data.length)
    (hmagic : (data.drop offset).take 4 = magicBytes)
    (horig : strTruthy (get_dds_format ((data.drop offset).take 128)) = true)
    (hnew : strTruthy (get_dds_format env.ddsBytes) = true) :
    (env.ddsBytes.length ≤ find_embedded_dds_length data offset →
      (processEntry env name offset (data, rlog)).1 =
        data.take offset ++
          padTo env.ddsBytes (find_embedded_dds_length data offset) ++
          data.drop (offset + find_embedded_dds_length data offset)) ∧
    (find_embedded_dds_length data offset < env.ddsBytes.length →
      (processEntry env name offset (data, rlog)).1 = data) := by
  constructor
  · intro hfit
    rw [processEntry_rawOnly hdds hpng hlen hmagic]
    dsimp only
    rw [rawStage_raw_accept hdds horig hnew hfit]
    dsimp only
    rw [padTo_take_of_le hfit,
      pySliceAssign_eq_of_bounds (by omega) (by omega) (find_embedded_le (by omega))]
  · intro hbig
    rw [processEntry_rawOnly hdds hpng hlen hmagic]
    dsimp only
    rw [rawStage_raw_oversize hdds horig hnew hbig]

/-- C1 amended witness: the 131-byte replacement is rejected because 131
exceeds the heuristic slot length 130. -/
theorem c1_amended_witness :
    (processEntry envC1 "dds_001.dds" 0 (dataC1, [])).1 = dataC1 :=
  (c1_amended_heuristic_slot_length envC1 "dds_001.dds" 0 dataC1 []
    (by decide) (by decide) (by decide) (by decide) (by decide) (by decide)).2
    (by decide)

/-- C2 counterexample: a raw-container replacement whose parsed format
tag (`DXT3`) differs from the original slot's (`DXT1`) is logged as a
format mismatch but the slot's bytes are NOT left untouched: the
replacement is spliced in anyway (there is no `continue` after the
mismatch log at repack.py lines 331-334). -/
theorem c2_counterexample :
    get_dds_format ((data136.drop 0).take 128) = some "DXT1" ∧
    get_dds_format envC2.ddsBytes = some "DXT3" ∧
    (processEntry envC2 "dds_002.dds" 0 (data136, [])).2 =
      [Diag.formatMismatch "dds_002.dds" 0 "DXT1" "DXT3"] ∧
    (processEntry envC2 "dds_002.dds" 0 (data136, [])).1 ≠ data136 ∧
    (processEntry envC2 "dds_002.dds" 0 (data136, [])).1 =
      padTo envC2.ddsBytes 136 := by decide

/-- C2 amended: on the generated (PNG-converted) replacement path a
parsed-format mismatch leaves the slot untouched and records a
diagnostic; on the raw-container path a mismatch records a diagnostic
but the replacement is still spliced in whenever its size permits. -/
theorem c2_amended_format_mismatch :
    (∀ (env : SlotEnv) (name : String) (offset L : Nat) (orig : Option String)
        (g data : List Nat),
      strTruthy (get_dds_format (g.take 128)) = true →
      get_dds_format (g.take 128) ≠ orig →
      rawStage env name offset orig L (some g) data =
        (data, [Diag.genFormatMismatch name (orig.getD "")
          ((get_dds_format (g.take 128)).getD "")])) ∧
    (∀ (env : SlotEnv) (name : String) (offset L : Nat) (orig : Option String)
        (data : List Nat),
      env.ddsExists = true →
      strTruthy orig = true →
      strTruthy (get_dds_format env.ddsBytes) = true →
      orig ≠ get_dds_format env.ddsBytes →
      env.ddsBytes.length ≤ L →
      rawStage env name offset orig L none data =
        (pySliceAssign data offset (offset + L) ((padTo env.ddsBytes L).take L),
          [Diag.formatMismatch name offset (orig.getD "")
            ((get_dds_format env.ddsBytes).getD "")])) := by
  constructor
  · intro env name offset L orig g data h1 h2
    exact rawStage_gen_mismatch h1 h2
  · intro env name offset L orig data hdds horig hnew hne hfit
    rw [rawStage_raw_accept hdds horig hnew hfit, if_pos hne]

/-- C2 amended witness: a generated DXT3 replacement against a DXT1 slot
is skipped with a diagnostic, the archive copy untouched. -/
theorem c2_amended_witness :
    rawStage (envRawOnly []) "dds_003.dds" 0 (some "DXT1") 136
      (some (mkHeader 4 4 1 fourccDXT3)) data136 =
      (data136, [Diag.genFormatMismatch "dds_003.dds" "DXT1" "DXT3"]) :=
  c2_amended_format_mismatch.1 (envRawOnly []) "dds_003.dds" 0 136
    (some "DXT1") (mkHeader 4 4 1 fourccDXT3) data136 (by decide) (by decide)

/-- C5 counterexample: on a DX10 slot of 156 bytes where both texconv
attempts produce 157 oversized bytes, the oversized generated
replacement is rejected but NO diagnostic line whatsoever is recorded
(repack.py lines 286-299 only print), and the slot is then silently
overwritten by the raw fallback — the repair log of the run is empty.
So "a diagnostic is emitted" does not hold of every oversized
replacement. -/
theorem c5_counterexample :
    find_embedded_dds_length dataC5dx 0 = 156 ∧
    envC5dx.dxGen1 = some (List.replicate 157 1) ∧
    envC5dx.dxGen2 = some (List.replicate 157 1) ∧
    (processEntry envC5dx "dds_006.dds" 0 (dataC5dx, [])).2 = [] ∧
    (processEntry envC5dx "dds_006.dds" 0 (dataC5dx, [])).1 ≠ dataC5dx := by
  decide

/-- C5 amended: an oversized replacement is always rejected and never
truncated, and a diagnostic is emitted on every path except the
DX10-generated one: (1) on the raw path the slot's bytes are unchanged
and a size diagnostic naming the computed slot length is appended after
any format note; (2) `convert_png_to_dds` only ever returns bytes of
exactly the requested slot size; (3) anything the generation stage
yields has exactly the slot length; (4) on the non-DX10 generated path
every failure to produce usable bytes — oversize included — records a
diagnostic; (5) on the DX10 generated path an oversized result of both
attempts is dropped with no diagnostic at all. -/
theorem c5_oversized_rejected :
    (∀ (env : SlotEnv) (name : String) (offset : Nat) (data : List Nat)
        (rlog : List Diag),
      env.ddsExists = true → env.pngExists = false →
      offset + 128 ≤ data.length →
      (data.drop offset).take 4 = magicBytes →
      strTruthy (get_dds_format ((data.drop offset).take 128)) = true →
      strTruthy (get_dds_format env.ddsBytes) = true →
      find_embedded_dds_length data offset < env.ddsBytes.length →
      (processEntry env name offset (data, rlog)).1 = data ∧
      ∃ mm, (processEntry env name offset (data, rlog)).2 =
        rlog ++ mm ++ [Diag.fileTooLarge name env.ddsBytes.length
          (find_embedded_dds_length data offset)]) ∧
    (∀ (t : Bool) (f : String) (m sz : Nat) (g1 g2 : Option (List Nat))
        (r : List Nat),
      convert_png_to_dds t f m sz g1 g2 = some r → r.length = sz) ∧
    (∀ (env : SlotEnv) (name : String) (offset : Nat) (orig : Option String)
        (m L : Nat) (data g : List Nat),
      (pngStage env name offset orig m L data).1 = some g → g.length = L) ∧
    (∀ (env : SlotEnv) (name : String) (offset : Nat) (orig : Option String)
        (m L : Nat) (data : List Nat),
      env.pngExists = true → orig ≠ some "DX10" →
      (pngStage env name offset orig m L data).1 = none →
      (pngStage env name offset orig m L data).2 = [Diag.conversionFailed name]) ∧
    (∀ (env : SlotEnv) (name : String) (offset : Nat) (m L : Nat)
        (data g1 g2 : List Nat) (d : Nat) (fmt : String),
      env.pngExists = true → env.texconvAvail = true → env.dxRun1Ok = true →
      env.dxGen1 = some g1 → env.dxGen2 = some g2 →
      L < g1.length → L < g2.length →
      get_dx10_dxgi_format ((data.drop offset).take 148) = some d →
      DXGI_TO_TEXCONV_FMT d = some fmt →
      pngStage env name offset (some "DX10") m L data = (none, [])) := by
  refine ⟨?_, ?_, ?_, ?_, ?_⟩
  · intro env name offset data rlog hdds hpng hlen hmagic horig hnew hbig
    rw [processEntry_rawOnly hdds hpng hlen hmagic]
    dsimp only
    rw [rawStage_raw_oversize hdds horig hnew hbig]
    dsimp only
    refine ⟨rfl, ?_⟩
    exact ⟨_, (List.append_assoc _ _ _).symm⟩
  · intro t f m sz g1 g2 r h
    exact convert_some_len h
  · intro env name offset orig m L data g h
    exact pngStage_some_len h
  · intro env name offset orig m L data hpng hdx h
    unfold pngStage at h ⊢
    rw [if_neg (by rw [hpng]; simp), if_neg hdx] at h ⊢
    cases hc : convert_png_to_dds env.texconvAvail (orig.getD "") m L
        env.gen1 env.gen2 with
    | some g => rw [hc] at h; simp at h
    | none => rfl
  · intro env name offset m L data g1 g2 d fmt hpng htex hrun h1 h2 hb1 hb2 hd hf
    unfold pngStage
    rw [if_neg (by rw [hpng]; simp), if_pos rfl]
    dsimp only
    rw [hd]
    dsimp only
    rw [hf]
    dsimp only
    rw [if_neg (by rw [htex]; simp), if_neg (by rw [hrun]; simp), h1]
    dsimp only
    rw [if_neg (by omega), h2]
    dsimp only
    rw [if_neg (by omega)]

/-- C5 witness: a 140-byte replacement against the 136-byte slot of the
spec's concrete scenario is rejected with a size diagnostic and the
archive copy is unchanged. -/
theorem c5_witness :
    (processEntry envC5 "dds_004.dds" 0 (data136, [])).1 = data136 ∧
    ∃ mm, (processEntry envC5 "dds_004.dds" 0 (data136, [])).2 =
      [] ++ mm ++ [Diag.fileTooLarge "dds_004.dds" 140 136] :=
  c5_oversized_rejected.1 envC5 "dds_004.dds" 0 data136 [] (by decide)
    (by decide) (by decide) (by decide) (by decide) (by decide) (by decide)

/-- C6: an accepted undersized replacement is written as the replacement
followed by zero filler bytes, filling the computed slot length exactly:
(1) on the raw path the bytes now occupying the slot are the replacement
padded with the filler byte 0 to exactly the computed slot length;
(2) anything `convert_png_to_dds` accepts is one of the generated
artifacts padded with the filler byte 0 to exactly the requested size. -/
theorem c6_undersized_padded :
    (∀ (env : SlotEnv) (name : String) (offset : Nat) (data : List Nat)
        (rlog : List Diag),
      env.ddsExists = true → env.pngExists = false →
      offset + 128 ≤ data.length →
      (data.drop offset).take 4 = magicBytes →
      strTruthy (get_dds_format ((data.drop offset).take 128)) = true →
      strTruthy (get_dds_format env.ddsBytes) = true →
      env.ddsBytes.length < find_embedded_dds_length data offset →
      (((processEntry env name offset (data, rlog)).1).drop offset).take
          (find_embedded_dds_length data offset) =
        env.ddsBytes ++ List.replicate
          (find_embedded_dds_length data offset - env.ddsBytes.length) 0) ∧
    (∀ (t : Bool) (f : String) (m sz : Nat) (g1 g2 : Option (List Nat))
        (r : List Nat),
      convert_png_to_dds t f m sz g1 g2 = some r →
      ∃ g, (g1 = some g ∨ g2 = some g) ∧ g.length ≤ sz ∧
        r = g ++ List.replicate (sz - g.length) 0) := by
  constructor
  · intro env name offset data rlog hdds hpng hlen hmagic horig hnew hsmall
    have hfit : env.ddsBytes.length ≤ find_embedded_dds_length data offset :=
      le_of_lt hsmall
    rw [processEntry_rawOnly hdds hpng hlen hmagic]
    dsimp only
    rw [rawStage_raw_accept hdds horig hnew hfit]
    dsimp only
    rw [padTo_take_of_le hfit,
      pySliceAssign_eq_of_bounds (by omega) (by omega) (find_embedded_le (by omega))]
    rw [List.append_assoc, List.drop_left' (by simp [List.length_take]; omega)]
    rw [List.take_append_of_le_length (by rw [padTo_length_of_le hfit])]
    rw [padTo_take_of_le hfit]
    rfl
  · intro t f m sz g1 g2 r h
    unfold convert_png_to_dds at h
    split at h
    · simp at h
    split at h
    · simp at h
    split at h
    · simp at h
    cases hg1 : g1 with
    | none => rw [hg1] at h; simp at h
    | some g0 =>
      rw [hg1] at h
      dsimp only at h
      by_cases hc : g0.length > sz ∧ m > 1
      · rw [if_pos hc] at h
        cases hg2 : g2 with
        | none => rw [hg2] at h; simp at h
        | some g2v =>
          rw [hg2] at h
          dsimp only at h
          unfold convFinalize at h
          split at h
          · next hle =>
            simp only [Option.some.injEq] at h
            exact ⟨g2v, Or.inr rfl, hle, h.symm⟩
          · simp at h
      · rw [if_neg hc] at h
        unfold convFinalize at h
        split at h
        · next hle =>
          simp only [Option.some.injEq] at h
          exact ⟨g0, Or.inl rfl, hle, h.symm⟩
        · simp at h

/-- C6 witness: a 130-byte replacement written into the 136-byte slot of
the spec's concrete scenario ends up padded with six zero bytes. -/
theorem c6_witness :
    (((processEntry envC6 "dds_005.dds" 0 (data136, [])).1).drop 0).take 136 =
      envC6.ddsBytes ++ List.replicate 6 0 :=
  c6_undersized_padded.1 envC6 "dds_005.dds" 0 data136 [] (by decide)
    (by decide) (by decide) (by decide) (by decide) (by decide) (by decide)

theorem takeWhile_append_all {p : Char → Bool} (xs ys : List Char)
    (h : ∀ c ∈ xs, p c = true) :
    (xs ++ ys).takeWhile p = xs ++ ys.takeWhile p := by
  induction xs with
  | nil => rfl
  | cons c cs ih =>
    have hc : p c = true := h c (List.mem_cons_self _ _)
    simp only [List.cons_append, List.takeWhile_cons, hc]
    rw [ih (fun d hd => h d (List.mem_cons_of_mem _ hd))]
    simp

theorem c4_gap_takeWhile {g : List Char} (h : ∀ c ∈ g, isPySpaceB c = true) :
    ((g ++ "Offset: 123".toList).takeWhile isPySpaceB) = g := by
  rw [takeWhile_append_all g _ h]
  rw [show ("Offset: 123".toList.takeWhile isPySpaceB) = [] from rfl]
  exact List.append_nil g

theorem matchTail_ws_gap (name : String) (g : List Char)
    (h1 : ∀ c ∈ g, isPySpaceB c = true)
    (h2 : g.any (fun c => c.toNat = 10) = true) :
    matchTail name (g ++ "Offset: 123".toList) = some (name, 123, []) := by
  unfold matchTail
  dsimp only
  rw [c4_gap_takeWhile h1, h2, List.drop_left g _]
  rfl

theorem matchEntryAt_ws_gap (g : List Char)
    (h1 : ∀ c ∈ g, isPySpaceB c = true)
    (h2 : g.any (fun c => c.toNat = 10) = true) :
    matchEntryAt ("dds_001.dds".toList ++ (g ++ "Offset: 123".toList)) =
      some ("dds_001.dds", 123, []) := by
  have step : matchEntryAt ("dds_001.dds".toList ++ (g ++ "Offset: 123".toList)) =
      matchTail "dds_001.dds" (g ++ "Offset: 123".toList) := rfl
  rw [step, matchTail_ws_gap "dds_001.dds" g h1 h2]

theorem findEntriesGo_nil (fuel : Nat) : findEntriesGo fuel [] = [] := by
  cases fuel <;> rfl

theorem findEntriesGo_succ (n : Nat) (c : Char) (cs : List Char) :
    findEntriesGo (n + 1) (c :: cs) =
      match matchEntryAt (c :: cs) with
      | some (nm, o, rest) => (nm, o) :: findEntriesGo n rest
      | none => findEntriesGo n cs := rfl

/-- C4 counterexample: a manifest entry whose name line and Offset line
are separated by extra whitespace (a blank line) AND an additional
metadata line is NOT recovered: the regex requires only whitespace with
a newline between the name and `Offset:`, so the `Format:` line makes
the match fail and `re.findall` returns nothing. -/
theorem c4_counterexample :
    findEntries "dds_001.dds\n\n  Format: DXT1\n  Offset: 123\n".toList = [] := by
  decide

/-- C4 amended: extra whitespace alone (any run of whitespace containing
a newline, e.g. trailing blanks, blank lines, indentation) between the
name and the Offset line is tolerated and the (name, offset) pair is
recovered; an additional non-whitespace metadata line between them
defeats the match. -/
theorem c4_amended_whitespace_tolerated (g : List Char)
    (h1 : ∀ c ∈ g, isPySpaceB c = true)
    (h2 : g.any (fun c => c.toNat = 10) = true) :
    findEntries ("dds_001.dds".toList ++ g ++ "Offset: 123".toList) =
      [("dds_001.dds", 123)] := by
  rw [show "dds_001.dds".toList ++ g ++ "Offset: 123".toList =
    "dds_001.dds".toList ++ (g ++ "Offset: 123".toList) from
    List.append_assoc _ _ _]
  unfold findEntries
  have h11 : "dds_001.dds".toList.length = 11 := rfl
  have hk : ("dds_001.dds".toList ++ (g ++ "Offset: 123".toList)).length =
      ((g ++ "Offset: 123".toList).length + 10) + 1 := by
    rw [List.length_append, h11]
    omega
  rw [hk]
  rw [show "dds_001.dds".toList ++ (g ++ "Offset: 123".toList) =
    'd' :: ("ds_001.dds".toList ++ (g ++ "Offset: 123".toList)) from rfl]
  rw [findEntriesGo_succ]
  rw [show 'd' :: ("ds_001.dds".toList ++ (g ++ "Offset: 123".toList)) =
    "dds_001.dds".toList ++ (g ++ "Offset: 123".toList) from rfl]
  rw [matchEntryAt_ws_gap g h1 h2]
  dsimp only
  rw [findEntriesGo_nil]

/-- C4 amended witness: a gap of trailing blanks, a blank line and
indentation. -/
theorem c4_amended_witness :
    findEntries ("dds_001.dds".toList ++ "  \n\n  ".toList ++
      "Offset: 123".toList) = [("dds_001.dds", 123)] :=
  c4_amended_whitespace_tolerated "  \n\n  ".toList (by decide) (by decide)
